import Mathlib

/-!
Shallow embedding of the batching Kinesis producer
(`batchproducer.go` / `src/unnamed/part_000`, package `batchproducer`).

Modelling conventions:
* Go `time.Duration` is an `int64` of nanoseconds; we model it as `Int`
  wrapped to the signed 64-bit range (`wrap64`) wherever the code can
  overflow (the exponential backoff doubling `currentDelay *= 2`).
* Go `int` fields of `Config` are modelled as `Int` (they can be negative).
* The record buffer (a Go channel of capacity `BufferSize`) is modelled as a
  `List` of records in FIFO order: the head of the list is the front of the
  channel; enqueue appends at the tail.
* `float32(len(b.records))/float32(cap(b.records)) >= 0.99` (resp. `0.95`) is
  modelled by the exact rational comparison `99 * cap <= 100 * len` (resp.
  `95 * cap <= 100 * len`) guarded by `0 < cap`; for `cap = 0` the Go code
  computes `0/0 = NaN`, and every comparison with NaN is false, which the
  guard reproduces.  For every capacity below half a million the float32
  comparison agrees exactly with the rational one (the nearest fraction to
  99/100 other than 99/100 itself has denominator > 5 * 10^5).
* The asynchronous re-enqueues (`go b.returnRecordsToBuffer(...)`,
  `go b.returnSomeFailedRecordsToBuffer(...)`) are modelled by their eventual
  effect: the records are appended at the tail of the buffer.
* Code paths that dereference a possibly-nil pointer (`*result.ErrorCode`) or
  index out of range (`records[i]`) are modelled with `Option`: a result of
  `none` is a Go runtime panic.
-/

namespace BatchProducer

/-- Nanoseconds in `m` milliseconds (Go durations are int64 nanoseconds). -/
def msNs (m : Nat) : Int := m * 1000000

/-- Wrap an integer into the signed 64-bit range, as Go int64 arithmetic does. -/
def wrap64 (x : Int) : Int := (x + 2 ^ 63) % 2 ^ 64 - 2 ^ 63

/-- MaxKinesisBatchSize is the maximum number of records Kinesis accepts per request. -/
def MaxKinesisBatchSize : Int := 500

/-- Go struct `batchRecord`: payload bytes, partition key, send-attempt counter. -/
structure PRecord where
  data : List Nat
  partitionKey : String
  sendAttempts : Nat
deriving Repr, DecidableEq

/-- The fields of Go struct `Config` that the producer logic reads.
`Logger` and `StatReceiver` are effectful collaborators and are omitted. -/
structure Config where
  addBlocksWhenBufferFull : Bool
  batchSize : Int
  bufferSize : Int
  flushInterval : Int
  maxAttemptsPerRecord : Int
  statInterval : Int
deriving Repr, DecidableEq

/-- One entry of the per-record result vector (`kinesis.PutRecordsResultEntry`):
both the error code and the error message are nullable pointers. -/
structure RecordResult where
  errorCode : Option String
  errorMessage : Option String
deriving Repr, DecidableEq

/-- Go struct `kinesis.PutRecordsOutput`: nullable failed-record count plus the
per-record result vector, positionally aligned with the request. -/
structure PutRecordsOutput where
  failedRecordCount : Option Int
  records : List RecordResult
deriving Repr, DecidableEq

/-- A sink response: either a whole-batch error or a `PutRecordsOutput`. -/
inductive SinkResp where
  | error (msg : String)
  | ok (out : PutRecordsOutput)
deriving Repr, DecidableEq

/-- The mutable state of a `batchProducer`: the buffer channel, the running
flag, the worker-local backoff state and the cumulative stat counters
(`currentStat`), plus the list of error events published so far. -/
structure PState where
  config : Config
  buffer : List PRecord
  running : Bool
  consecutiveErrors : Nat
  currentDelay : Int
  statKinesisErrors : Nat
  statSentOk : Int
  statDropped : Nat
  events : List String
deriving Repr, DecidableEq

/-- Go `isBufferFull`: `float32(len)/float32(cap) >= 0.99`, exact-rational model. -/
def isBufferFull (len : Nat) (cap : Int) : Prop :=
  0 < cap ∧ 99 * cap ≤ 100 * (len : Int)

instance (len : Nat) (cap : Int) : Decidable (isBufferFull len cap) :=
  inferInstanceAs (Decidable (_ ∧ _))

/-- Go `isBufferFullOrNearlyFull`: `float32(len)/float32(cap) >= 0.95`. -/
def isBufferFullOrNearlyFull (len : Nat) (cap : Int) : Prop :=
  0 < cap ∧ 95 * cap ≤ 100 * (len : Int)

instance (len : Nat) (cap : Int) : Decidable (isBufferFullOrNearlyFull len cap) :=
  inferInstanceAs (Decidable (_ ∧ _))

/-- Fresh producer state as built by `New` (running is false, buffer empty,
all counters zero); the worker is not started. -/
def initialState (config : Config) : PState :=
  { config := config
    buffer := []
    running := false
    consecutiveErrors := 0
    currentDelay := 0
    statKinesisErrors := 0
    statSentOk := 0
    statDropped := 0
    events := [] }

/-- Outcome of `New`: a constructed (not yet started) producer, a validation
error, or a runtime panic (`make(chan batchRecord, n)` panics for `n < 0`). -/
inductive NewResult where
  | made (s : PState)
  | invalid (msg : String)
  | panicked
deriving Repr, DecidableEq

/-- Go `New`: validates the configuration and builds the producer without
starting the worker and without performing I/O. -/
def New (config : Config) : NewResult :=
  if config.batchSize < 1 ∨ config.batchSize > MaxKinesisBatchSize then
    .invalid "BatchSize must be between 1 and 500 inclusive"
  else if config.bufferSize < config.batchSize ∧ config.flushInterval ≤ 0 then
    .invalid "if BufferSize < BatchSize && FlushInterval <= 0 then the buffer will eventually fill up and Add will block forever"
  else if 0 < config.flushInterval ∧ config.flushInterval < msNs 50 then
    .invalid "are you crazy"
  else if config.bufferSize < 0 then
    .panicked
  else
    .made (initialState config)

/-- Go `Add`: entry checks (running flag, buffer-full policy), then the channel
send `b.records <- batchRecord{data, partitionKey}` with `sendAttempts = 0`.
A send that blocks (full buffer with `AddBlocksWhenBufferFull`) is modelled by
its eventual effect, the completed enqueue; the send itself has no error path. -/
def Add (s : PState) (data : List Nat) (pk : String) : Except String PState :=
  if ¬ s.running then
    .error "Cannot call Add when BatchProducer is not running (to prevent the buffer filling up and Add blocking indefinitely)."
  else if isBufferFull s.buffer.length s.config.bufferSize ∧ ¬ s.config.addBlocksWhenBufferFull then
    .error "Buffer is full"
  else
    .ok { s with buffer := s.buffer ++ [⟨data, pk, 0⟩] }

/-- Go `takeRecordsFromBuffer` size computation: `min(batchSize, len)`, written
exactly as the code writes it (`if bufferLen >= batchSize ...`). -/
def takeSize (batchSize : Int) (bufferLen : Nat) : Nat :=
  if (bufferLen : Int) ≥ batchSize then batchSize.toNat else bufferLen

/-- Go `returnSomeFailedRecordsToBuffer`: walk the result vector positionally
against the taken records; for each entry with a non-nil `ErrorMessage`,
increment the record's attempts and publish an error event; re-enqueue it if
`sendAttempts < MaxAttemptsPerRecord`, else count it dropped and format a log
line that dereferences `*result.ErrorCode`.  Returns the records to re-enqueue
(in order), the number of drops counted, and the events published; `none`
models a panic (result vector longer than the batch, or a nil `ErrorCode`
dereferenced in the drop log). -/
def returnSomeFailedRecordsToBuffer (maxAttempts : Int) :
    List RecordResult → List PRecord → Option (List PRecord × Nat × List String)
  | [], _ => some ([], 0, [])
  | _ :: _, [] => none
  | result :: results, record :: records =>
    match result.errorMessage with
    | none => returnSomeFailedRecordsToBuffer maxAttempts results records
    | some msg =>
      let record' : PRecord := { record with sendAttempts := record.sendAttempts + 1 }
      if (record'.sendAttempts : Int) < maxAttempts then
        match returnSomeFailedRecordsToBuffer maxAttempts results records with
        | none => none
        | some (reenq, drops, evs) => some (record' :: reenq, drops, msg :: evs)
      else
        match result.errorCode with
        | none => none
        | some _ =>
          match returnSomeFailedRecordsToBuffer maxAttempts results records with
          | none => none
          | some (reenq, drops, evs) => some (reenq, drops + 1, msg :: evs)

/-- Result of one `sendBatch` dispatch: the returned success count, the new
state, the backoff sleep actually performed (`none` when no sleep), whether
the sink (`PutRecords`) was called, and how many records were taken. -/
structure SendOut where
  succeeded : Int
  state : PState
  slept : Option Int
  calledSink : Bool
  tookCount : Nat
deriving Repr, DecidableEq

/-- Go `sendBatch`: early return on empty buffer; backoff update and sleep;
take up to `batchSize` records; call the sink; on a whole-batch error either
drop the batch (`consecutiveErrors >= 5` and the buffer at least 95% full) or
re-enqueue it unchanged at the tail; on success reset the backoff and process
the per-record results.  `none` models a panic inside
`returnSomeFailedRecordsToBuffer`. -/
def sendBatch (sink : List PRecord → SinkResp) (batchSize : Int) (s : PState) :
    Option SendOut :=
  if s.buffer.isEmpty then
    some ⟨0, s, none, false, 0⟩
  else
    let delay : Int :=
      if s.consecutiveErrors = 1 then msNs 50
      else if s.consecutiveErrors > 1 then wrap64 (s.currentDelay * 2)
      else s.currentDelay
    let slept : Option Int := if delay > 0 then some delay else none
    let size := takeSize batchSize s.buffer.length
    let taken := s.buffer.take size
    let rest := s.buffer.drop size
    match sink taken with
    | .error msg =>
      let s1 : PState :=
        { s with
          consecutiveErrors := s.consecutiveErrors + 1
          currentDelay := delay
          statKinesisErrors := s.statKinesisErrors + 1
          events := s.events ++ [msg] }
      if s.consecutiveErrors + 1 ≥ 5 ∧
          isBufferFullOrNearlyFull rest.length s.config.bufferSize then
        some ⟨0, { s1 with buffer := rest }, slept, true, size⟩
      else
        some ⟨0, { s1 with buffer := rest ++ taken }, slept, true, size⟩
    | .ok out =>
      let s1 : PState := { s with consecutiveErrors := 0, currentDelay := 0 }
      match out.failedRecordCount with
      | none =>
        some ⟨(taken.length : Int),
              { s1 with
                buffer := rest
                statSentOk := s.statSentOk + (taken.length : Int) },
              slept, true, size⟩
      | some fc =>
        match returnSomeFailedRecordsToBuffer s.config.maxAttemptsPerRecord out.records taken with
        | none => none
        | some (reenq, drops, evs) =>
          let succeeded : Int := (taken.length : Int) - fc
          some ⟨succeeded,
                { s1 with
                  buffer := rest ++ reenq
                  statSentOk := s.statSentOk + succeeded
                  statDropped := s.statDropped + drops
                  events := s.events ++ evs },
                slept, true, size⟩

/-- Observable events for the temporal claims: a call to the sink
(`client.PutRecords`) and the completion handshake of `Stop` (the worker's
acknowledgement on the `stop` channel, after which `Stop` returns). -/
inductive TraceEv where
  | sinkCall
  | stopAck
deriving Repr, DecidableEq

/-- One resolution of the `select` in the worker's main loop `run`:
which channel fired (or the `default` branch). -/
inductive Choice where
  | flushTick
  | statTick
  | stopSignal
  | defaultCase
deriving Repr, DecidableEq

/-- Go `run`, the worker's main loop, driven by a schedule of select
resolutions.  `flushTick` dispatches a batch of up to `BatchSize`; `statTick`
emits stats (no trace event we track); `stopSignal` emits final stats,
acknowledges on the stop channel and returns — the remaining schedule is
never executed; `defaultCase` dispatches only when the buffer has at least
`BatchSize` records, else sleeps 1ms.  Returns the emitted trace; a dispatch
panic (`none` from `sendBatch`) kills the worker after its sink call. -/
def runTrace (sink : List PRecord → SinkResp) :
    List Choice → PState → List TraceEv
  | [], _ => []
  | c :: cs, s =>
    match c with
    | .stopSignal => [.stopAck]
    | .statTick => runTrace sink cs s
    | .flushTick =>
      match sendBatch sink s.config.batchSize s with
      | none => [.sinkCall]
      | some out =>
        (if out.calledSink then [.sinkCall] else []) ++ runTrace sink cs out.state
    | .defaultCase =>
      if (s.buffer.length : Int) ≥ s.config.batchSize then
        match sendBatch sink s.config.batchSize s with
        | none => [.sinkCall]
        | some out =>
          (if out.calledSink then [.sinkCall] else []) ++ runTrace sink cs out.state
      else
        runTrace sink cs s

/-- Go `Stop`, as observed by `Flush`: the running flag becomes false once the
worker has acknowledged. -/
def stopModel (s : PState) : PState := { s with running := false }

/-- The drain loop of Go `Flush` with `timeout = 0` (the timer is stopped, so
`<-timer.C` never fires): while the buffer is non-empty, dispatch a batch of
up to `MaxKinesisBatchSize` and accumulate the returned success counts.  The
loop in the code iterates until the buffer empties; `fuel` bounds the number
of iterations of the model, and a `none` result means the loop neither
emptied the buffer within `fuel` iterations nor the batch sizes taken are
reported — the theorems only use runs where the buffer genuinely empties.
Returns (sent, final state, the sizes of the dispatched batches in order). -/
def flushLoop (sink : List PRecord → SinkResp) :
    Nat → PState → Option (Int × PState × List Nat)
  | fuel, s =>
    if s.buffer.isEmpty then some (0, s, [])
    else
      match fuel with
      | 0 => none
      | fuel' + 1 =>
        match sendBatch sink MaxKinesisBatchSize s with
        | none => none
        | some out =>
          match flushLoop sink fuel' out.state with
          | none => none
          | some (sent, s', sizes) =>
            some (out.succeeded + sent, s', out.tookCount :: sizes)

/-- Go `Flush(timeout = 0, sendStats)`: `b.Stop()`, then the drain loop, then
`return sent, len(b.records), nil`.  The error component is the literal `nil`
of the code's only return statement. -/
def Flush0 (sink : List PRecord → SinkResp) (fuel : Nat) (s : PState) :
    Option (Int × Nat × Option String × PState) :=
  match flushLoop sink fuel (stopModel s) with
  | none => none
  | some (sent, s', _) => some (sent, s'.buffer.length, none, s')

/-- Trace of sink calls made by the drain loop of `Flush`, one `sinkCall` per
dispatch on a non-empty buffer (a dispatch that panics still called the sink
first). -/
def drainTrace (sink : List PRecord → SinkResp) :
    Nat → PState → List TraceEv
  | fuel, s =>
    if s.buffer.isEmpty then []
    else
      match fuel with
      | 0 => []
      | fuel' + 1 =>
        match sendBatch sink MaxKinesisBatchSize s with
        | none => [.sinkCall]
        | some out =>
          (if out.calledSink then [.sinkCall] else []) ++ drainTrace sink fuel' out.state

/-- The event trace of a full `Flush` call on a running producer: `Stop`
completes (the worker acknowledges and `Stop` returns) and only then does the
drain loop start calling the sink from the caller's thread. -/
def flushTrace (sink : List PRecord → SinkResp) (fuel : Nat) (s : PState) :
    List TraceEv :=
  .stopAck :: drainTrace sink fuel (stopModel s)

/-- The delay value the backoff step computes when a dispatch starts with
`consecutiveErrors = n`, following int64 arithmetic: `0` for `n = 0` (the
delay is left at its reset value), `50ms` for `n = 1`, and the wrapped
doubling for larger `n`. -/
def wDelay : Nat → Int
  | 0 => 0
  | 1 => msNs 50
  | n + 2 => wrap64 (wDelay (n + 1) * 2)

/-- A sink that fails every call with a transport error. -/
def failSink : List PRecord → SinkResp := fun _ => .error "connection reset"

/-- A sink that succeeds every call with a nil `FailedRecordCount`. -/
def okSink : List PRecord → SinkResp := fun _ => .ok ⟨none, []⟩

/-- Iterate `sendBatch` with batch size `MaxKinesisBatchSize` a given number
of times (the shape of one consecutive-failure streak). -/
def iterFail (sink : List PRecord → SinkResp) : Nat → PState → Option PState
  | 0, s => some s
  | n + 1, s =>
    match sendBatch sink MaxKinesisBatchSize s with
    | none => none
    | some out => iterFail sink n out.state

/-- The sequence of batch sizes an error-free drain of `n` buffered records
takes: `min(500, n)` records per dispatch until the buffer is empty. -/
def drainSizes (n : Nat) : List Nat :=
  if _h : n = 0 then []
  else takeSize MaxKinesisBatchSize n :: drainSizes (n - takeSize MaxKinesisBatchSize n)
termination_by n
decreasing_by
  have h1 : 0 < takeSize MaxKinesisBatchSize n := by
    simp only [takeSize, MaxKinesisBatchSize]
    split <;> omega
  omega

/-! Concrete configurations and states used by counterexamples and witnesses. -/

/-- A configuration with `BufferSize = 0` and an otherwise valid shape. -/
def cfgZeroBuf : Config := ⟨false, 1, 0, msNs 1000, 10, 0⟩

/-- A small configuration: `BatchSize = 1`, `BufferSize = 20`. -/
def cfgDrop : Config := ⟨false, 1, 20, msNs 1000, 10, 0⟩

/-- A roomy configuration: `BatchSize = 10`, `BufferSize = 1000`. -/
def cfgBig : Config := ⟨false, 10, 1000, msNs 1000, 10, 0⟩

/-- A marked record and a filler record. -/
def r0 : PRecord := ⟨[0], "x", 0⟩

/-- Filler record for the counterexample buffers. -/
def r1 : PRecord := ⟨[1], "y", 0⟩

/-- A running producer whose buffer holds `r0` followed by 19 fillers (20 of
20 slots used), already at 4 consecutive errors. -/
def sDrop : PState :=
  { initialState cfgDrop with
    buffer := r0 :: List.replicate 19 r1
    running := true
    consecutiveErrors := 4 }

/-- A running producer holding a single record, used to iterate failures. -/
def sFail : PState :=
  { initialState cfgBig with buffer := [r0], running := true }

/-- A running producer holding 7 records, used for flush runs. -/
def sFlush : PState :=
  { initialState cfgBig with buffer := List.replicate 7 r1, running := true }

/-- A running producer with an empty buffer. -/
def sRun : PState := { initialState cfgBig with running := true }

/-- A produced-but-stopped producer. -/
def sNotRun : PState := initialState cfgBig

/-! ## Claim C3 — construction-time validation -/

/-- Claim C3, counterexample: `New` accepts a configuration whose
`BufferSize` is `0` (the claimed `BufferSize <= 0` validation does not exist
in the code): with `BatchSize = 1`, `BufferSize = 0`, `FlushInterval = 1s`
every check passes and a producer is returned. -/
theorem new_accepts_zero_bufferSize_cex :
    New cfgZeroBuf = .made (initialState cfgZeroBuf) ∧ cfgZeroBuf.bufferSize ≤ 0 := by
  constructor
  · rfl
  · decide

/-- Claim C3, amended: `New` returns a validation error exactly when
`BatchSize < 1` or `BatchSize > 500`, or `BufferSize < BatchSize` with
`FlushInterval <= 0`, or `0 < FlushInterval < 50ms`; there is no
`BufferSize <= 0` check.  When no check fails and `BufferSize >= 0`, `New`
returns a producer that is not running, has an empty buffer and zeroed
counters, without starting the worker (a negative `BufferSize` passes
validation but panics allocating the buffer channel). -/
theorem new_validation (config : Config) :
    ((∃ msg, New config = .invalid msg) ↔
      (config.batchSize < 1 ∨ config.batchSize > 500 ∨
        (config.bufferSize < config.batchSize ∧ config.flushInterval ≤ 0) ∨
        (0 < config.flushInterval ∧ config.flushInterval < msNs 50)))
    ∧ (New config = .made (initialState config) ↔
        (¬ (config.batchSize < 1 ∨ config.batchSize > 500 ∨
            (config.bufferSize < config.batchSize ∧ config.flushInterval ≤ 0) ∨
            (0 < config.flushInterval ∧ config.flushInterval < msNs 50)) ∧
          0 ≤ config.bufferSize))
    ∧ (initialState config).running = false
    ∧ (initialState config).buffer = [] := by
  refine ⟨?_, ?_, rfl, rfl⟩ <;>
  · unfold New MaxKinesisBatchSize
    split_ifs with h1 h2 h3 h4 <;>
      simp_all [msNs, initialState] <;> omega

/-! ## Claim C7 — Submit (Add) admission -/

/-- Claim C7: `Add` fails without enqueuing when the producer is not running;
it fails with a buffer-full error without enqueuing when the buffer is at
`>= 99%` of capacity and `AddBlocksWhenBufferFull` is false; in every other
case it enqueues one record carrying the payload and partition key with a
send-attempt counter of 0 and returns no error (a blocking enqueue is
modelled by its completed effect). -/
theorem add_spec (s : PState) (data : List Nat) (pk : String) :
    (s.running = false →
      Add s data pk = .error "Cannot call Add when BatchProducer is not running (to prevent the buffer filling up and Add blocking indefinitely).")
    ∧ (s.running = true →
        isBufferFull s.buffer.length s.config.bufferSize →
        s.config.addBlocksWhenBufferFull = false →
        Add s data pk = .error "Buffer is full")
    ∧ (s.running = true →
        (¬ isBufferFull s.buffer.length s.config.bufferSize ∨
          s.config.addBlocksWhenBufferFull = true) →
        Add s data pk = .ok { s with buffer := s.buffer ++ [⟨data, pk, 0⟩] }) := by
  refine ⟨?_, ?_, ?_⟩ <;> intro h1 <;> unfold Add <;> simp [h1]
  · intro h2 h3
    simp [h2, h3]
  · intro h2
    rcases h2 with h2 | h2 <;> simp [h2]

/-- Claim C7, witness: on a running producer with an empty buffer, `Add`
enqueues the record with zero attempts. -/
theorem add_spec_witness :
    Add sRun [1] "k" = .ok { sRun with buffer := sRun.buffer ++ [⟨[1], "k", 0⟩] } :=
  (add_spec sRun [1] "k").2.2 rfl (Or.inl (by decide))

/-! ## Claim C9 — Add blocked on a full buffer cannot observe Stop -/

/-- Claim C9 (the code at the failing input): every error `Add` ever returns
is produced by its two entry checks — not running, or full buffer with
non-blocking policy.  A call admitted past those checks reaches the plain
channel send, which has no stop/cancellation path: its only outcome is the
completed enqueue with a nil error.  In particular a caller blocked on the
send when `Stop` happens can never get an error back. -/
theorem add_no_error_after_admission :
    (∀ (s : PState) (data : List Nat) (pk : String) (msg : String),
        Add s data pk = .error msg →
        s.running = false ∨
          (isBufferFull s.buffer.length s.config.bufferSize ∧
            s.config.addBlocksWhenBufferFull = false))
    ∧ (∀ (s : PState) (data : List Nat) (pk : String),
        s.running = true → s.config.addBlocksWhenBufferFull = true →
        Add s data pk = .ok { s with buffer := s.buffer ++ [⟨data, pk, 0⟩] }) := by
  constructor
  · intro s data pk msg h
    unfold Add at h
    split_ifs at h with h1 h2 <;>
      first
        | exact Or.inl (by simpa using h1)
        | exact Or.inr (by simpa using h2)
        | simp at h
  · intro s data pk h1 h2
    unfold Add
    simp [h1, h2]

/-- Claim C9, witness: on a stopped producer the error `Add` returns comes
from the entry check. -/
theorem add_no_error_after_admission_witness :
    sNotRun.running = false ∨
      (isBufferFull sNotRun.buffer.length sNotRun.config.bufferSize ∧
        sNotRun.config.addBlocksWhenBufferFull = false) :=
  add_no_error_after_admission.1 sNotRun [] "k"
    "Cannot call Add when BatchProducer is not running (to prevent the buffer filling up and Add blocking indefinitely)." rfl

/-! ## Claim C10 — nil ErrorCode dereference in the drop log -/

/-- Claim C10 (the code at the failing input): processing a per-record result
whose `ErrorMessage` is non-nil while its `ErrorCode` is nil, for a record
whose incremented attempts reach `MaxAttemptsPerRecord`, reaches the
drop-logging branch, which dereferences `*result.ErrorCode` unconditionally —
a nil-pointer dereference (modelled as `none`, a Go panic). -/
theorem nil_errorCode_panics :
    returnSomeFailedRecordsToBuffer 1 [⟨none, some "boom"⟩] [⟨[], "k", 0⟩] = none := rfl

/-! ## Claim C4 — whole-batch failure handling -/

/-- Claim C4: when the sink returns a whole-batch error, the dispatch returns
0 successful, increments `consecutiveErrors` and the downstream-error stat,
and drops the taken batch exactly when the incremented `consecutiveErrors`
is at least 5 and the post-take buffer is at least 95% full; in every other
whole-batch failure the taken records are re-enqueued at the tail, unchanged
(the very same records, so their attempts counters are preserved). -/
theorem sendBatch_wholeBatchFailure (sink : List PRecord → SinkResp) (batchSize : Int)
    (s : PState) (out : SendOut) (msg : String)
    (hb : s.buffer ≠ [])
    (hsink : sink (s.buffer.take (takeSize batchSize s.buffer.length)) = .error msg)
    (hout : sendBatch sink batchSize s = some out) :
    out.succeeded = 0 ∧
    out.state.consecutiveErrors = s.consecutiveErrors + 1 ∧
    out.state.statKinesisErrors = s.statKinesisErrors + 1 ∧
    ((s.consecutiveErrors + 1 ≥ 5 ∧
        isBufferFullOrNearlyFull (s.buffer.drop (takeSize batchSize s.buffer.length)).length
          s.config.bufferSize) →
      out.state.buffer = s.buffer.drop (takeSize batchSize s.buffer.length)) ∧
    (¬ (s.consecutiveErrors + 1 ≥ 5 ∧
        isBufferFullOrNearlyFull (s.buffer.drop (takeSize batchSize s.buffer.length)).length
          s.config.bufferSize) →
      out.state.buffer = s.buffer.drop (takeSize batchSize s.buffer.length) ++
        s.buffer.take (takeSize batchSize s.buffer.length)) := by
  have hbe : s.buffer.isEmpty = false := by
    cases hsb : s.buffer with
    | nil => exact absurd hsb hb
    | cons a l => rfl
  unfold sendBatch at hout
  rw [hbe] at hout
  simp only [Bool.false_eq_true, if_false] at hout
  rw [hsink] at hout
  split_ifs at hout with hcond <;> cases hout <;>
    refine ⟨rfl, rfl, rfl, ?_, ?_⟩ <;> intro hcond2 <;> first | rfl | tauto

/-- The concrete outcome of the failing dispatch on `sDrop`: the batch of one
record is dropped, the drop counter stays 0. -/
def outDrop : SendOut :=
  ⟨0,
    { config := cfgDrop
      buffer := List.replicate 19 r1
      running := true
      consecutiveErrors := 5
      currentDelay := 0
      statKinesisErrors := 1
      statSentOk := 0
      statDropped := 0
      events := ["connection reset"] },
    none, true, 1⟩

/-- Claim C4, witness: on `sDrop` (4 prior consecutive errors, 20 of 20 slots
used, batch of 1 taken) the failing dispatch drops the batch. -/
theorem sendBatch_wholeBatchFailure_witness :
    outDrop.state.buffer = sDrop.buffer.drop (takeSize 1 sDrop.buffer.length) :=
  (sendBatch_wholeBatchFailure failSink 1 sDrop outDrop "connection reset"
    (by decide) rfl (by decide)).2.2.2.1 (by decide)

/-! ## Claim C1 — drop accounting in the stats counter -/

/-- Conservation of records through `returnSomeFailedRecordsToBuffer`: with an
aligned result vector, every taken record is exactly one of delivered (its
result entry has no error message), re-enqueued, or counted in the returned
drop count — so each per-record drop bumps the counter by exactly one. -/
theorem returnSome_conservation (maxAttempts : Int) (results : List RecordResult) :
    ∀ (records : List PRecord) (reenq : List PRecord) (drops : Nat) (evs : List String),
      results.length = records.length →
      returnSomeFailedRecordsToBuffer maxAttempts results records = some (reenq, drops, evs) →
      records.length =
        reenq.length + drops + (results.filter (fun r => r.errorMessage.isNone)).length := by
  induction results with
  | nil =>
    intro records reenq drops evs hlen hp
    cases records with
    | nil =>
      simp only [returnSomeFailedRecordsToBuffer, Option.some_inj, Prod.mk.injEq] at hp
      obtain ⟨h1, h2, h3⟩ := hp
      simp [← h1, ← h2]
    | cons a l => simp at hlen
  | cons result results ih =>
    intro records reenq drops evs hlen hp
    cases records with
    | nil => simp [returnSomeFailedRecordsToBuffer] at hp
    | cons record records' =>
      have hlen' : results.length = records'.length := by simpa using hlen
      simp only [returnSomeFailedRecordsToBuffer] at hp
      cases hmsg : result.errorMessage with
      | none =>
        rw [hmsg] at hp
        have hfil : ((result :: results).filter (fun r => r.errorMessage.isNone)).length
            = (results.filter (fun r => r.errorMessage.isNone)).length + 1 := by
          simp [List.filter_cons, hmsg]
        rw [List.length_cons, hfil]
        have h := ih records' reenq drops evs hlen' hp
        omega
      | some msg =>
        rw [hmsg] at hp
        have hfil : ((result :: results).filter (fun r => r.errorMessage.isNone)).length
            = (results.filter (fun r => r.errorMessage.isNone)).length := by
          simp [List.filter_cons, hmsg]
        rw [List.length_cons, hfil]
        split_ifs at hp with hatt
        · cases hrec : returnSomeFailedRecordsToBuffer maxAttempts results records' with
          | none => rw [hrec] at hp; cases hp
          | some triple =>
            obtain ⟨reenq0, drops0, evs0⟩ := triple
            rw [hrec] at hp
            simp only [Option.some_inj, Prod.mk.injEq] at hp
            obtain ⟨h1, h2, h3⟩ := hp
            have hr : reenq.length = reenq0.length + 1 := by
              rw [← h1]; rfl
            have h := ih records' reenq0 drops0 evs0 hlen' hrec
            omega
        · cases hcode : result.errorCode with
          | none => rw [hcode] at hp; cases hp
          | some code =>
            rw [hcode] at hp
            cases hrec : returnSomeFailedRecordsToBuffer maxAttempts results records' with
            | none => rw [hrec] at hp; cases hp
            | some triple =>
              obtain ⟨reenq0, drops0, evs0⟩ := triple
              rw [hrec] at hp
              simp only [Option.some_inj, Prod.mk.injEq] at hp
              obtain ⟨h1, h2, h3⟩ := hp
              have hr : reenq.length = reenq0.length := by rw [← h1]
              have h := ih records' reenq0 drops0 evs0 hlen' hrec
              omega

/-- Claim C1, counterexample: a whole-batch drop is NOT counted in the stats
drop counter.  On `sDrop` (5th consecutive error, post-take buffer 19 of 20 =
95% full) the dispatch terminally removes the taken record `r0` — it is in no
buffer afterwards and was never delivered (the dispatch returned 0) — yet
`RecordsDroppedSinceLastStat` stays `0`. -/
theorem batchDrop_uncounted_cex :
    ((sendBatch failSink 1 sDrop).map SendOut.state).map PState.statDropped = some 0
    ∧ ((sendBatch failSink 1 sDrop).map SendOut.state).map PState.buffer =
        some (List.replicate 19 r1)
    ∧ r0 ∉ List.replicate 19 r1
    ∧ (sendBatch failSink 1 sDrop).map SendOut.succeeded = some 0 := by
  refine ⟨rfl, rfl, by decide, rfl⟩

/-- Claim C1, amended: records dropped per-record after exhausting
`MaxAttemptsPerRecord` are each counted exactly once in
`RecordsDroppedSinceLastStat` (the counter grows by the number of records the
result processing drops, and each taken record is exactly one of: delivered,
re-enqueued, or counted dropped); records dropped as part of a whole batch
under the `consecutiveErrors >= 5` and buffer `>= 95%` rule are not counted —
on every whole-batch failure, and on an all-success response, the drop
counter is unchanged. -/
theorem dropAccounting (sink : List PRecord → SinkResp) (batchSize : Int)
    (s : PState) (out : SendOut)
    (hb : s.buffer ≠ [])
    (hout : sendBatch sink batchSize s = some out) :
    (∀ msg, sink (s.buffer.take (takeSize batchSize s.buffer.length)) = .error msg →
        out.state.statDropped = s.statDropped)
    ∧ (∀ o, sink (s.buffer.take (takeSize batchSize s.buffer.length)) = .ok o →
        o.failedRecordCount = none → out.state.statDropped = s.statDropped)
    ∧ (∀ (o : PutRecordsOutput) (fc : Int) (reenq : List PRecord) (drops : Nat)
          (evs : List String),
        sink (s.buffer.take (takeSize batchSize s.buffer.length)) = .ok o →
        o.failedRecordCount = some fc →
        returnSomeFailedRecordsToBuffer s.config.maxAttemptsPerRecord o.records
          (s.buffer.take (takeSize batchSize s.buffer.length)) = some (reenq, drops, evs) →
        out.state.statDropped = s.statDropped + drops ∧
        (o.records.length = (s.buffer.take (takeSize batchSize s.buffer.length)).length →
          (s.buffer.take (takeSize batchSize s.buffer.length)).length =
            reenq.length + drops +
              (o.records.filter (fun r => r.errorMessage.isNone)).length)) := by
  have hbe : s.buffer.isEmpty = false := by
    cases hsb : s.buffer with
    | nil => exact absurd hsb hb
    | cons a l => rfl
  unfold sendBatch at hout
  rw [hbe] at hout
  simp only [Bool.false_eq_true, if_false] at hout
  refine ⟨?_, ?_, ?_⟩
  · intro msg hsink
    rw [hsink] at hout
    split_ifs at hout with hcond <;> cases hout <;> rfl
  · intro o hsink hfc
    simp only [hsink, hfc] at hout
    cases hout
    rfl
  · intro o fc reenq drops evs hsink hfc hproc
    simp only [hsink, hfc, hproc] at hout
    cases hout
    exact ⟨rfl, fun hlen =>
      returnSome_conservation s.config.maxAttemptsPerRecord o.records _ reenq drops evs
        hlen hproc⟩

/-- A sink response failing the single record of the batch. -/
def resPf : PutRecordsOutput := ⟨some 1, [⟨some "ProvisionedThroughputExceededException", some "oops"⟩]⟩

/-- A sink that always answers `resPf`. -/
def pfSink : List PRecord → SinkResp := fun _ => .ok resPf

/-- A running producer holding one record already at 9 attempts
(`MaxAttemptsPerRecord = 10`). -/
def sPf : PState :=
  { initialState cfgBig with buffer := [⟨[2], "z", 9⟩], running := true }

/-- The concrete outcome of dispatching `sPf` against `pfSink`: the record's
incremented attempts reach the cap, it is dropped and counted. -/
def outPf : SendOut :=
  ⟨0,
    { config := cfgBig
      buffer := []
      running := true
      consecutiveErrors := 0
      currentDelay := 0
      statKinesisErrors := 0
      statSentOk := 0
      statDropped := 1
      events := ["oops"] },
    none, true, 1⟩

/-- Claim C1, witness: at `sPf` the per-record drop is counted — the counter
grows by exactly the one drop, and the taken record is accounted for. -/
theorem dropAccounting_witness :
    outPf.state.statDropped = sPf.statDropped + 1 ∧
    (sPf.buffer.take (takeSize 10 sPf.buffer.length)).length =
      ([] : List PRecord).length + 1 +
        (resPf.records.filter (fun r => r.errorMessage.isNone)).length := by
  have h := (dropAccounting pfSink 10 sPf outPf (by decide) (by decide)).2.2
    resPf 1 [] 1 ["oops"] rfl rfl (by decide)
  exact ⟨h.1, h.2 (by decide)⟩

/-! ## Claim C6 — per-record result processing on a successful sink call -/

/-- Characterization of `returnSomeFailedRecordsToBuffer` in terms of the
positional pairing of results with the taken records: the re-enqueued list is
exactly the failed records with incremented attempts still under the cap, the
drop count is exactly the number of failed records whose incremented attempts
reach the cap, and the published events are exactly the error messages in
order. -/
theorem returnSome_characterization (maxAttempts : Int) (results : List RecordResult) :
    ∀ (records : List PRecord) (reenq : List PRecord) (drops : Nat) (evs : List String),
      returnSomeFailedRecordsToBuffer maxAttempts results records = some (reenq, drops, evs) →
      reenq = (results.zip records).filterMap (fun p =>
          match p.1.errorMessage with
          | none => none
          | some _ =>
            if ((p.2.sendAttempts + 1 : Nat) : Int) < maxAttempts then
              some { p.2 with sendAttempts := p.2.sendAttempts + 1 }
            else none)
      ∧ drops = ((results.zip records).filter (fun p =>
          p.1.errorMessage.isSome &&
            ! decide (((p.2.sendAttempts + 1 : Nat) : Int) < maxAttempts))).length
      ∧ evs = (results.zip records).filterMap (fun p => p.1.errorMessage) := by
  induction results with
  | nil =>
    intro records reenq drops evs hp
    simp only [returnSomeFailedRecordsToBuffer, Option.some_inj, Prod.mk.injEq] at hp
    obtain ⟨h1, h2, h3⟩ := hp
    simp [← h1, ← h2, ← h3]
  | cons result results ih =>
    intro records reenq drops evs hp
    cases records with
    | nil => simp [returnSomeFailedRecordsToBuffer] at hp
    | cons record records' =>
      simp only [returnSomeFailedRecordsToBuffer] at hp
      cases hmsg : result.errorMessage with
      | none =>
        rw [hmsg] at hp
        obtain ⟨h1, h2, h3⟩ := ih records' reenq drops evs hp
        refine ⟨?_, ?_, ?_⟩
        · rw [List.zip_cons_cons, List.filterMap_cons]
          simp only [hmsg]
          exact h1
        · rw [List.zip_cons_cons, List.filter_cons]
          simp only [hmsg, Option.isSome_none, Bool.false_and, if_false]
          exact h2
        · rw [List.zip_cons_cons, List.filterMap_cons]
          simp only [hmsg]
          exact h3
      | some msg =>
        rw [hmsg] at hp
        split_ifs at hp with hatt
        · cases hrec : returnSomeFailedRecordsToBuffer maxAttempts results records' with
          | none => rw [hrec] at hp; cases hp
          | some triple =>
            obtain ⟨reenq0, drops0, evs0⟩ := triple
            rw [hrec] at hp
            simp only [Option.some_inj, Prod.mk.injEq] at hp
            obtain ⟨h1, h2, h3⟩ := hp
            obtain ⟨g1, g2, g3⟩ := ih records' reenq0 drops0 evs0 hrec
            refine ⟨?_, ?_, ?_⟩
            · rw [List.zip_cons_cons, List.filterMap_cons]
              simp only [hmsg, hatt, if_true]
              rw [← h1, g1]
            · rw [List.zip_cons_cons, List.filter_cons]
              simp only [hmsg, Option.isSome_some, Bool.true_and, hatt, decide_True,
                Bool.not_true, Bool.false_eq_true, if_false]
              rw [← h2, g2]
            · rw [List.zip_cons_cons, List.filterMap_cons]
              simp only [hmsg]
              rw [← h3, g3]
        · cases hcode : result.errorCode with
          | none => rw [hcode] at hp; cases hp
          | some code =>
            rw [hcode] at hp
            cases hrec : returnSomeFailedRecordsToBuffer maxAttempts results records' with
            | none => rw [hrec] at hp; cases hp
            | some triple =>
              obtain ⟨reenq0, drops0, evs0⟩ := triple
              rw [hrec] at hp
              simp only [Option.some_inj, Prod.mk.injEq] at hp
              obtain ⟨h1, h2, h3⟩ := hp
              obtain ⟨g1, g2, g3⟩ := ih records' reenq0 drops0 evs0 hrec
              refine ⟨?_, ?_, ?_⟩
              · rw [List.zip_cons_cons, List.filterMap_cons]
                simp only [hmsg, hatt, if_false]
                rw [← h1, g1]
              · rw [List.zip_cons_cons, List.filter_cons]
                simp only [hmsg, Option.isSome_some, Bool.true_and, hatt, decide_False,
                  Bool.not_false, if_true, List.length_cons]
                rw [← h2, g2]
              · rw [List.zip_cons_cons, List.filterMap_cons]
                simp only [hmsg]
                rw [← h3, g3]

/-- Claim C6: when the sink call succeeds with a non-nil failed count, each
failed record (per its positional result entry carrying an error message) has
its attempts incremented and an error event published; it is re-enqueued at
the tail exactly when the incremented attempts stay strictly under
`MaxAttemptsPerRecord`, and otherwise counted in the drop stat; and the
dispatch adds `succeeded = len(records) - failedCount` to the sent-ok stat
and returns `succeeded`. -/
theorem sendBatch_perRecordFailure (sink : List PRecord → SinkResp) (batchSize : Int)
    (s : PState) (out : SendOut) (o : PutRecordsOutput) (fc : Int)
    (reenq : List PRecord) (drops : Nat) (evs : List String)
    (hb : s.buffer ≠ [])
    (hsink : sink (s.buffer.take (takeSize batchSize s.buffer.length)) = .ok o)
    (hfc : o.failedRecordCount = some fc)
    (hproc : returnSomeFailedRecordsToBuffer s.config.maxAttemptsPerRecord o.records
      (s.buffer.take (takeSize batchSize s.buffer.length)) = some (reenq, drops, evs))
    (hout : sendBatch sink batchSize s = some out) :
    out.succeeded = ((s.buffer.take (takeSize batchSize s.buffer.length)).length : Int) - fc
    ∧ out.state.statSentOk =
        s.statSentOk + (((s.buffer.take (takeSize batchSize s.buffer.length)).length : Int) - fc)
    ∧ out.state.consecutiveErrors = 0
    ∧ out.state.currentDelay = 0
    ∧ out.state.buffer = s.buffer.drop (takeSize batchSize s.buffer.length) ++ reenq
    ∧ out.state.statDropped = s.statDropped + drops
    ∧ out.state.events = s.events ++ evs
    ∧ reenq = (o.records.zip (s.buffer.take (takeSize batchSize s.buffer.length))).filterMap
        (fun p =>
          match p.1.errorMessage with
          | none => none
          | some _ =>
            if ((p.2.sendAttempts + 1 : Nat) : Int) < s.config.maxAttemptsPerRecord then
              some { p.2 with sendAttempts := p.2.sendAttempts + 1 }
            else none)
    ∧ drops = ((o.records.zip (s.buffer.take (takeSize batchSize s.buffer.length))).filter
        (fun p =>
          p.1.errorMessage.isSome &&
            ! decide (((p.2.sendAttempts + 1 : Nat) : Int) < s.config.maxAttemptsPerRecord))).length
    ∧ evs = (o.records.zip (s.buffer.take (takeSize batchSize s.buffer.length))).filterMap
        (fun p => p.1.errorMessage) := by
  have hbe : s.buffer.isEmpty = false := by
    cases hsb : s.buffer with
    | nil => exact absurd hsb hb
    | cons a l => rfl
  unfold sendBatch at hout
  rw [hbe] at hout
  simp only [Bool.false_eq_true, if_false] at hout
  simp only [hsink, hfc, hproc] at hout
  cases hout
  obtain ⟨g1, g2, g3⟩ :=
    returnSome_characterization s.config.maxAttemptsPerRecord o.records
      (s.buffer.take (takeSize batchSize s.buffer.length)) reenq drops evs hproc
  exact ⟨rfl, rfl, rfl, rfl, rfl, rfl, rfl, g1, g2, g3⟩

/-- A two-record batch for the per-record failure witness: the first record is
fresh, the second is at 9 of 10 attempts. -/
def sC6 : PState :=
  { initialState cfgBig with buffer := [⟨[3], "a", 0⟩, ⟨[4], "b", 9⟩], running := true }

/-- A response failing both records of the batch. -/
def resC6 : PutRecordsOutput :=
  ⟨some 2, [⟨some "e1", some "m1"⟩, ⟨some "e2", some "m2"⟩]⟩

/-- A sink that always answers `resC6`. -/
def c6Sink : List PRecord → SinkResp := fun _ => .ok resC6

/-- The concrete outcome of dispatching `sC6` against `c6Sink`: the fresh
record is re-enqueued with one attempt, the exhausted one is dropped and
counted, both error messages are published, and 0 successes are returned. -/
def outC6 : SendOut :=
  ⟨0,
    { config := cfgBig
      buffer := [⟨[3], "a", 1⟩]
      running := true
      consecutiveErrors := 0
      currentDelay := 0
      statKinesisErrors := 0
      statSentOk := 0
      statDropped := 1
      events := ["m1", "m2"] },
    none, true, 2⟩

/-- Claim C6, witness: the dispatch of `sC6` re-enqueues the under-cap record
at the tail, counts the exhausted one dropped, and returns
`len(records) - failedCount = 0`. -/
theorem sendBatch_perRecordFailure_witness :
    outC6.succeeded = ((sC6.buffer.take (takeSize 10 sC6.buffer.length)).length : Int) - 2
    ∧ outC6.state.buffer =
        sC6.buffer.drop (takeSize 10 sC6.buffer.length) ++ [⟨[3], "a", 1⟩]
    ∧ outC6.state.statDropped = sC6.statDropped + 1 := by
  have h := sendBatch_perRecordFailure c6Sink 10 sC6 outC6 resC6 2
    [⟨[3], "a", 1⟩] 1 ["m1", "m2"] (by decide) rfl rfl (by decide) (by decide)
  exact ⟨h.1, h.2.2.2.2.1, h.2.2.2.2.2.1⟩

/-! ## Claim C5 — exponential backoff -/

theorem wrap64_eq_self (x : Int) (h1 : -(2 ^ 63) ≤ x) (h2 : x < 2 ^ 63) : wrap64 x = x := by
  unfold wrap64
  have h3 : (0 : Int) ≤ x + 2 ^ 63 := by omega
  have h4 : x + 2 ^ 63 < 2 ^ 64 := by omega
  rw [Int.emod_eq_of_lt h3 h4]
  ring

theorem wDelay_eq_of_le : ∀ n : Nat, 1 ≤ n → n ≤ 38 → wDelay n = msNs 50 * 2 ^ (n - 1) := by
  intro n
  induction n with
  | zero => intro h; omega
  | succ m ih =>
    intro h1 h2
    cases m with
    | zero => norm_num [wDelay, msNs]
    | succ k =>
      have e : wDelay (k + 2) = wrap64 (wDelay (k + 1) * 2) := rfl
      rw [e, ih (by omega) (by omega)]
      have harg : msNs 50 * 2 ^ (k + 1 - 1) * 2 = msNs 50 * 2 ^ (k + 2 - 1) := by
        have e1 : k + 1 - 1 = k := rfl
        have e2 : k + 2 - 1 = k + 1 := rfl
        rw [e1, e2, pow_succ]
        ring
      rw [harg]
      apply wrap64_eq_self
      · have hp : (0 : Int) ≤ msNs 50 * 2 ^ (k + 2 - 1) := by
          unfold msNs
          positivity
        omega
      · have hk : (2 : Int) ^ (k + 2 - 1) ≤ 2 ^ 37 := by
          apply pow_le_pow_right (by norm_num)
          omega
        have : msNs 50 * 2 ^ (k + 2 - 1) ≤ msNs 50 * 2 ^ 37 := by
          apply mul_le_mul_of_nonneg_left hk (by norm_num [msNs])
        have h37 : msNs 50 * (2 : Int) ^ 37 < 2 ^ 63 := by norm_num [msNs]
        omega

theorem wDelay_pos_of_le (n : Nat) (h1 : 1 ≤ n) (h2 : n ≤ 38) : 0 < wDelay n := by
  rw [wDelay_eq_of_le n h1 h2]
  unfold msNs
  positivity

/-- Claim C5, amended. -/
theorem backoff_doubling (sink : List PRecord → SinkResp) (batchSize : Int)
    (s : PState) (out : SendOut) (n : Nat)
    (hb : s.buffer ≠ [])
    (hce : s.consecutiveErrors = n)
    (hcd : s.currentDelay = if n = 0 then 0 else wDelay (n - 1))
    (hout : sendBatch sink batchSize s = some out) :
    (out.slept = if wDelay n > 0 then some (wDelay n) else none)
    ∧ (n = 0 → out.slept = none)
    ∧ (1 ≤ n → n ≤ 38 → out.slept = some (msNs 50 * 2 ^ (n - 1)))
    ∧ (∀ msg, sink (s.buffer.take (takeSize batchSize s.buffer.length)) = .error msg →
        out.state.consecutiveErrors = n + 1 ∧ out.state.currentDelay = wDelay n)
    ∧ (∀ o, sink (s.buffer.take (takeSize batchSize s.buffer.length)) = .ok o →
        out.state.consecutiveErrors = 0 ∧ out.state.currentDelay = 0) := by
  have hbe : s.buffer.isEmpty = false := by
    cases hsb : s.buffer with
    | nil => exact absurd hsb hb
    | cons a l => rfl
  have hdelay : (if s.consecutiveErrors = 1 then msNs 50
      else if s.consecutiveErrors > 1 then wrap64 (s.currentDelay * 2)
      else s.currentDelay) = wDelay n := by
    rw [hce, hcd]
    cases n with
    | zero => norm_num [wDelay]
    | succ m =>
      cases m with
      | zero => norm_num [wDelay]
      | succ k =>
        have e1 : ¬ (k + 2 = 1) := by omega
        have e2 : k + 2 > 1 := by omega
        have e3 : ¬ (k + 2 = 0) := by omega
        simp only [e1, e2, e3, if_false, if_true]
        have e4 : k + 2 - 1 = k + 1 := rfl
        rw [e4]
        rfl
  unfold sendBatch at hout
  rw [hbe] at hout
  simp only [Bool.false_eq_true, if_false] at hout
  rw [hdelay] at hout
  have hslept : ∀ (hyp : out.slept = if wDelay n > 0 then some (wDelay n) else none),
      (out.slept = if wDelay n > 0 then some (wDelay n) else none)
      ∧ (n = 0 → out.slept = none)
      ∧ (1 ≤ n → n ≤ 38 → out.slept = some (msNs 50 * 2 ^ (n - 1))) := by
    intro hyp
    refine ⟨hyp, ?_, ?_⟩
    · intro h0
      subst h0
      simp [wDelay] at hyp ⊢
      exact hyp
    · intro h1 h2
      rw [hyp, if_pos (wDelay_pos_of_le n h1 h2), wDelay_eq_of_le n h1 h2]
  cases hres : sink (s.buffer.take (takeSize batchSize s.buffer.length)) with
  | error msg0 =>
    simp only [hres] at hout
    by_cases hdrop : s.consecutiveErrors + 1 ≥ 5 ∧
        isBufferFullOrNearlyFull (List.drop (takeSize batchSize s.buffer.length) s.buffer).length
          s.config.bufferSize
    · rw [if_pos hdrop] at hout
      cases hout
      refine ⟨(hslept rfl).1, (hslept rfl).2.1, (hslept rfl).2.2, ?_, ?_⟩ <;> intro z hz
      · exact ⟨by rw [hce], rfl⟩
      · exact SinkResp.noConfusion hz
    · rw [if_neg hdrop] at hout
      cases hout
      refine ⟨(hslept rfl).1, (hslept rfl).2.1, (hslept rfl).2.2, ?_, ?_⟩ <;> intro z hz
      · exact ⟨by rw [hce], rfl⟩
      · exact SinkResp.noConfusion hz
  | ok o =>
    simp only [hres] at hout
    split at hout
    · cases hout
      refine ⟨(hslept rfl).1, (hslept rfl).2.1, (hslept rfl).2.2, ?_, ?_⟩ <;> intro z hz
      · exact SinkResp.noConfusion hz
      · exact ⟨rfl, rfl⟩
    · split at hout
      · cases hout
      · cases hout
        refine ⟨(hslept rfl).1, (hslept rfl).2.1, (hslept rfl).2.2, ?_, ?_⟩ <;> intro z hz
        · exact SinkResp.noConfusion hz
        · exact ⟨rfl, rfl⟩

/-- A running producer at 2 consecutive errors with the matching reachable
delay `wDelay 1 = 50ms`. -/
def sW5 : PState :=
  { initialState cfgBig with
    buffer := [r0]
    running := true
    consecutiveErrors := 2
    currentDelay := msNs 50 }

/-- The concrete outcome of the next failing dispatch on `sW5`: it sleeps
`100ms = 50ms * 2^1`. -/
def outW5 : SendOut :=
  ⟨0,
    { config := cfgBig
      buffer := [r0]
      running := true
      consecutiveErrors := 3
      currentDelay := 100000000
      statKinesisErrors := 1
      statSentOk := 0
      statDropped := 0
      events := ["connection reset"] },
    some 100000000, true, 1⟩

theorem backoff_doubling_witness :
    outW5.slept = some (msNs 50 * 2 ^ (2 - 1)) :=
  (backoff_doubling failSink 500 sW5 outW5 2 (by decide) rfl (by decide)
    (by decide)).2.2.1 (by omega) (by omega)

set_option maxRecDepth 8192 in
theorem backoff_overflow_cex :
    ((iterFail failSink 39 sFail).bind (sendBatch failSink MaxKinesisBatchSize)).map
        SendOut.slept = some none
    ∧ (iterFail failSink 39 sFail).map PState.consecutiveErrors = some 39
    ∧ msNs 50 * 2 ^ (39 - 1) > 0 := by
  refine ⟨rfl, rfl, by norm_num [msNs]⟩

/-! ## Claim C2 — no sink call after Stop completes -/

/-- Splitting an append around an element absent from the left part. -/
theorem append_cons_of_not_mem {α : Type} {a : List α} :
    ∀ {b pre post : List α} {x : α},
      a ++ b = pre ++ x :: post → x ∉ a → ∃ pre2, b = pre2 ++ x :: post := by
  induction a with
  | nil =>
    intro b pre post x h hx
    exact ⟨pre, by simpa using h⟩
  | cons y a' ih =>
    intro b pre post x h hx
    cases pre with
    | nil =>
      simp only [List.nil_append, List.cons_append, List.cons.injEq] at h
      obtain ⟨h1, h2⟩ := h
      simp only [List.mem_cons, not_or] at hx
      exact absurd h1.symm hx.1
    | cons z pre' =>
      simp only [List.cons_append, List.cons.injEq] at h
      obtain ⟨h1, h2⟩ := h
      simp only [List.mem_cons, not_or] at hx
      exact ih h2 hx.2

/-- Claim C2, amended: the worker makes no sink call after acknowledging the
stop signal — in every run of the worker loop, the stop acknowledgement (the
event whose emission lets `Stop` return) is the final event of the worker's
trace, so no worker-initiated `PutRecords` call follows it until a fresh
`Start` runs a new loop.  (The drain loop of `Flush`, which runs on the
caller's thread after its internal `Stop` returns, is the exception recorded
by the counterexample.) -/
theorem worker_no_sink_after_stopAck (sink : List PRecord → SinkResp)
    (choices : List Choice) :
    ∀ (s : PState) (pre post : List TraceEv),
      runTrace sink choices s = pre ++ TraceEv.stopAck :: post → post = [] := by
  induction choices with
  | nil =>
    intro s pre post h
    simp only [runTrace] at h
    exact absurd h (by simp)
  | cons c cs ih =>
    intro s pre post h
    cases c with
    | stopSignal =>
      simp only [runTrace] at h
      cases pre with
      | nil => simpa using h.symm
      | cons z pre' =>
        simp only [List.cons_append, List.cons.injEq] at h
        exact absurd h.2 (by simp)
    | statTick =>
      simp only [runTrace] at h
      exact ih s pre post h
    | flushTick =>
      simp only [runTrace] at h
      cases hsb : sendBatch sink s.config.batchSize s with
      | none =>
        rw [hsb] at h
        have hmem : TraceEv.stopAck ∈ pre ++ TraceEv.stopAck :: post := by simp
        rw [← h] at hmem
        simp at hmem
      | some out =>
        rw [hsb] at h
        have hnm : TraceEv.stopAck ∉ (if out.calledSink then [TraceEv.sinkCall] else []) := by
          split <;> simp
        obtain ⟨pre2, h2⟩ := append_cons_of_not_mem h hnm
        exact ih out.state pre2 post h2
    | defaultCase =>
      simp only [runTrace] at h
      split at h
      · cases hsb : sendBatch sink s.config.batchSize s with
        | none =>
          rw [hsb] at h
          have hmem : TraceEv.stopAck ∈ pre ++ TraceEv.stopAck :: post := by simp
          rw [← h] at hmem
          simp at hmem
        | some out =>
          rw [hsb] at h
          have hnm : TraceEv.stopAck ∉ (if out.calledSink then [TraceEv.sinkCall] else []) := by
            split <;> simp
          obtain ⟨pre2, h2⟩ := append_cons_of_not_mem h hnm
          exact ih out.state pre2 post h2
      · exact ih s pre post h

/-- Claim C2, witness: a run consisting of the stop signal alone ends at the
acknowledgement. -/
theorem worker_no_sink_after_stopAck_witness : ([] : List TraceEv) = [] :=
  worker_no_sink_after_stopAck okSink [Choice.stopSignal] sRun [] [] rfl

/-- Claim C2, counterexample: `Flush` violates the claim as stated.  On a
running producer with 7 buffered records and an always-succeeding sink,
`Flush` first completes `Stop` (the worker acknowledges and exits), and then
— with no fresh `Start` — its drain loop calls the sink: the execution trace
is `stopAck` followed by `sinkCall`. -/
theorem flush_sink_after_stop_cex :
    flushTrace okSink 7 sFlush = [TraceEv.stopAck, TraceEv.sinkCall] := rfl

/-! ## Claim C8 — Flush with no timeout drains everything -/

/-- The take size never exceeds the buffer length. -/
theorem takeSize_le (bs : Int) (len : Nat) : takeSize bs len ≤ len := by
  unfold takeSize
  split
  · omega
  · exact Nat.le_refl len

/-- A drain-sized take from a non-empty buffer is non-empty. -/
theorem takeSize_500_pos (len : Nat) (h : 0 < len) :
    0 < takeSize MaxKinesisBatchSize len := by
  unfold takeSize MaxKinesisBatchSize
  split <;> omega

/-- One dispatch against the always-succeeding sink: all taken records are
reported successful and removed from the buffer. -/
theorem sendBatch_okSink_eq (s : PState) (hb : s.buffer.isEmpty = false) :
    sendBatch okSink MaxKinesisBatchSize s =
      some ⟨((s.buffer.take (takeSize MaxKinesisBatchSize s.buffer.length)).length : Int),
            { s with
              consecutiveErrors := 0
              currentDelay := 0
              buffer := s.buffer.drop (takeSize MaxKinesisBatchSize s.buffer.length)
              statSentOk := s.statSentOk +
                ((s.buffer.take (takeSize MaxKinesisBatchSize s.buffer.length)).length : Int) },
            if (if s.consecutiveErrors = 1 then msNs 50
                else if s.consecutiveErrors > 1 then wrap64 (s.currentDelay * 2)
                else s.currentDelay) > 0
            then some (if s.consecutiveErrors = 1 then msNs 50
                else if s.consecutiveErrors > 1 then wrap64 (s.currentDelay * 2)
                else s.currentDelay)
            else none,
            true, takeSize MaxKinesisBatchSize s.buffer.length⟩ := by
  unfold sendBatch
  rw [hb]
  simp only [Bool.false_eq_true, if_false, okSink]

/-- The drain loop of `Flush` against the always-succeeding sink empties the
buffer within `length` iterations, reports every record successful, and takes
`min(500, remaining)` records per dispatch. -/
theorem flushLoop_okSink :
    ∀ (fuel : Nat) (s : PState), s.buffer.length ≤ fuel →
      ∃ s', flushLoop okSink fuel s =
          some ((s.buffer.length : Int), s', drainSizes s.buffer.length) ∧ s'.buffer = [] := by
  intro fuel
  induction fuel with
  | zero =>
    intro s hlen
    have hemp : s.buffer = [] := List.length_eq_zero.mp (Nat.le_zero.mp hlen)
    refine ⟨s, ?_, hemp⟩
    rw [flushLoop]
    simp [hemp, drainSizes]
  | succ fuel ih =>
    intro s hlen
    by_cases hemp : s.buffer = []
    · refine ⟨s, ?_, hemp⟩
      rw [flushLoop]
      simp [hemp, drainSizes]
    · have hbe : s.buffer.isEmpty = false := by
        cases hsb : s.buffer with
        | nil => exact absurd hsb hemp
        | cons a l => rfl
      have hpos : 0 < s.buffer.length := List.length_pos.mpr hemp
      have hsz := takeSize_le MaxKinesisBatchSize s.buffer.length
      have hszpos := takeSize_500_pos s.buffer.length hpos
      have htk : (s.buffer.take (takeSize MaxKinesisBatchSize s.buffer.length)).length
          = takeSize MaxKinesisBatchSize s.buffer.length := by
        rw [List.length_take]
        omega
      have hdp : (s.buffer.drop (takeSize MaxKinesisBatchSize s.buffer.length)).length
          = s.buffer.length - takeSize MaxKinesisBatchSize s.buffer.length := by
        rw [List.length_drop]
      obtain ⟨s', hs', hemp'⟩ := ih
        { s with
          consecutiveErrors := 0
          currentDelay := 0
          buffer := s.buffer.drop (takeSize MaxKinesisBatchSize s.buffer.length)
          statSentOk := s.statSentOk +
            ((s.buffer.take (takeSize MaxKinesisBatchSize s.buffer.length)).length : Int) }
        (by
          show (s.buffer.drop (takeSize MaxKinesisBatchSize s.buffer.length)).length ≤ fuel
          rw [hdp]
          omega)
      refine ⟨s', ?_, hemp'⟩
      rw [flushLoop]
      rw [hbe]
      simp only [Bool.false_eq_true, if_false]
      rw [sendBatch_okSink_eq s hbe]
      simp only [hdp, htk] at hs'
      simp only [htk, hs', Option.some_inj, Prod.mk.injEq]
      refine ⟨by omega, trivial, ?_⟩
      conv_rhs => rw [drainSizes]
      rw [dif_neg (by omega)]

/-- Claim C8: `Flush(0, sendStats)` (no timeout) against an always-succeeding
sink returns `sent = N` (all `N` buffered records reported successful),
`remaining = 0`, and a nil error; the drain dispatch sizes are exactly the
`min(500, remaining)` chunks of `N`.  Moreover every `Flush` return, for any
sink, carries a nil error with `sent` the accumulated success count and
`remaining` the buffer size at return. -/
theorem flush_drains_all (s : PState) (N : Nat) (hN : s.buffer.length = N) :
    ((Flush0 okSink N s).map Prod.fst = some (N : Int)
      ∧ (Flush0 okSink N s).map (Prod.fst ∘ Prod.snd) = some 0
      ∧ (Flush0 okSink N s).map (Prod.fst ∘ Prod.snd ∘ Prod.snd) = some none
      ∧ (flushLoop okSink N (stopModel s)).map (Prod.snd ∘ Prod.snd) = some (drainSizes N))
    ∧ (∀ (sink2 : List PRecord → SinkResp) (fuel : Nat) (t : PState)
          (r : Int × Nat × Option String × PState),
        Flush0 sink2 fuel t = some r → r.2.2.1 = none) := by
  constructor
  · have hN2 : (stopModel s).buffer.length = N := by
      simp only [stopModel]
      exact hN
    obtain ⟨s', hs', hemp⟩ := flushLoop_okSink N (stopModel s) (le_of_eq hN2)
    rw [hN2] at hs'
    unfold Flush0
    rw [hs']
    have hrem : s'.buffer.length = 0 := by simp [hemp]
    simp [hrem]
  · intro sink2 fuel t r h
    unfold Flush0 at h
    cases hfl : flushLoop sink2 fuel (stopModel t) with
    | none => rw [hfl] at h; cases h
    | some triple =>
      obtain ⟨sent, s2, sizes⟩ := triple
      rw [hfl] at h
      simp only [Option.some_inj] at h
      rw [← h]

/-- Claim C8, witness: 7 buffered records, `Flush(0, ...)` with the
always-succeeding sink: 7 sent, 0 remaining. -/
theorem flush_drains_all_witness :
    (Flush0 okSink 7 sFlush).map Prod.fst = some (7 : Int)
    ∧ (Flush0 okSink 7 sFlush).map (Prod.fst ∘ Prod.snd) = some 0 :=
  ⟨(flush_drains_all sFlush 7 rfl).1.1, (flush_drains_all sFlush 7 rfl).1.2.1⟩

end BatchProducer
